import Mathlib

/-!
Shallow embedding of the `headers` middleware of this repository
(`middlewares/headers/headers.go`) and of the response-modifier builder
(`responsemodifiers` package, `buildHeaders`).

A Go `http.Header` is modelled as an association list of
(header name, value) pairs, accessed only through the operations the code
uses: `Get` (first value, empty string when absent), `Set` (replace) and
`Del` (remove).  Header names are taken as already canonicalized strings:
Go canonicalizes names consistently in `Get`/`Set`/`Del`, so the
canonicalization map is a bijection that the model absorbs.
-/

namespace Headers

/-- A header collection: association list from header name to value. -/
abbrev HeaderMap := List (String × String)

/-- `http.Header.Del`: remove every entry with the given name. -/
def hDel (h : HeaderMap) (k : String) : HeaderMap :=
  h.filter (fun p => p.1 != k)

/-- `http.Header.Set`: replace the entries with the given name by one entry. -/
def hSet (h : HeaderMap) (k v : String) : HeaderMap :=
  (k, v) :: hDel h k

/-- The first value stored under a name, if any. -/
def hLookup (h : HeaderMap) (k : String) : Option String :=
  (h.find? (fun p => p.1 == k)).map Prod.snd

/-- `http.Header.Get`: first value under the name, `""` when absent. -/
def hGet (h : HeaderMap) (k : String) : String :=
  (hLookup h k).getD ""

/-- The fields of `config.Headers` read by `headers.go`
(custom header maps and the CORS options). -/
structure ConfigHeaders where
  customRequestHeaders : List (String × String)
  customResponseHeaders : List (String × String)
  accessControlAllowCredentials : Bool
  accessControlAllowHeaders : List String
  accessControlAllowMethods : List String
  accessControlAllowOrigin : String
  accessControlExposeHeaders : List String
  accessControlMaxAge : Int
  addVaryHeader : Bool

/-- The `Header` middleware struct: `next http.Handler` (modelled as the
fact of its presence), `headers *config.Headers`, and the mutable
`originHeader string` field. -/
structure Header where
  hasNext : Bool
  headers : ConfigHeaders
  originHeader : String

/-- `NewHeader`: constructs a `Header` with the supplied config; the
`originHeader` field is left at its zero value `""`. -/
def NewHeader (hasNext : Bool) (cfg : ConfigHeaders) : Header :=
  ⟨hasNext, cfg, ""⟩

/-- An HTTP request: its method and header collection. -/
structure Request where
  method : String
  headers : HeaderMap

/-- `Header.getAllowOrigin`: the `switch` on the configured
`AccessControlAllowOrigin` value, reading the stored `originHeader`. -/
def getAllowOrigin (s : Header) : String :=
  if s.headers.accessControlAllowOrigin = "origin-list-or-null" then
    if s.originHeader = "" then "null" else s.originHeader
  else if s.headers.accessControlAllowOrigin = "*" then "*"
  else ""

/-- One iteration of the custom-header loop:
`if value == "" { Del(header) } else { Set(header, value) }`. -/
def applyOne (h : HeaderMap) (p : String × String) : HeaderMap :=
  if p.2 = "" then hDel h p.1 else hSet h p.1 p.2

/-- The custom-header loop over a mapping, in one iteration order. -/
def applyCustomHeaders (m : List (String × String)) (h : HeaderMap) : HeaderMap :=
  m.foldl applyOne h

/-- `Header.modifyRequestHeaders`: apply `CustomRequestHeaders` to the
request's headers. -/
def modifyRequestHeaders (s : Header) (req : Request) : Request :=
  ⟨req.method, applyCustomHeaders s.headers.customRequestHeaders req.headers⟩

/-- `Header.ModifyResponseHeaders`: custom response headers, then the
allow-origin / `Vary` step, then credentials, then expose-headers.
The Go function always returns `nil`; the model returns the new headers. -/
def modifyResponseHeaders (s : Header) (res : HeaderMap) : HeaderMap :=
  let h1 := applyCustomHeaders s.headers.customResponseHeaders res
  let allowOrigin := getAllowOrigin s
  let h2 :=
    if allowOrigin != "" then
      let ha := hSet h1 "Access-Control-Allow-Origin" allowOrigin
      if s.headers.addVaryHeader then
        let varyHeader := hGet ha "Vary"
        let varyHeader := if varyHeader != "" then varyHeader ++ ",Origin" else "Origin"
        hSet ha "Vary" varyHeader
      else ha
    else h1
  let h3 :=
    if s.headers.accessControlAllowCredentials then
      hSet h2 "Access-Control-Allow-Credentials" "true"
    else h2
  let exposeHeaders := String.intercalate "," s.headers.accessControlExposeHeaders
  if exposeHeaders != "" then
    hSet h3 "Access-Control-Expose-Headers" exposeHeaders
  else h3

/-- The statement `s.originHeader = req.Header.Get("Origin")` in
`Header.ServeHTTP`: it writes the request's Origin into the shared
`Header` struct. -/
def storeOrigin (s : Header) (req : Request) : Header :=
  ⟨s.hasNext, s.headers, hGet req.headers "Origin"⟩

/-- The outcome of one `Header.ServeHTTP` call: the mutated middleware
state, the headers added to the response writer (in `Add` order), whether
the next handler was invoked, and the request as passed downstream. -/
structure ServeResult where
  state : Header
  added : List (String × String)
  nextCalled : Bool
  request : Request

/-- `Header.ServeHTTP`: reads the preflight signal headers, stores the
Origin on the struct, then either synthesizes the CORS preflight response
(without calling `next`) or rewrites the request headers and calls `next`
when it is non-nil. -/
def serveHTTP (s : Header) (req : Request) : ServeResult :=
  let reqAcMethod := hGet req.headers "Access-Control-Request-Method"
  let reqAcHeaders := hGet req.headers "Access-Control-Request-Headers"
  let s1 := storeOrigin s req
  if reqAcMethod != "" && reqAcHeaders != "" && s1.originHeader != "" && req.method == "OPTIONS" then
    let added : List (String × String) :=
      if s1.headers.accessControlAllowCredentials then
        [("Access-Control-Allow-Credentials", "true")]
      else []
    let allowHeaders := String.intercalate "," s1.headers.accessControlAllowHeaders
    let added :=
      if allowHeaders != "" then added ++ [("Access-Control-Allow-Headers", allowHeaders)]
      else added
    let allowMethods := String.intercalate "," s1.headers.accessControlAllowMethods
    let added :=
      if allowMethods != "" then added ++ [("Access-Control-Allow-Methods", allowMethods)]
      else added
    let allowOrigin := getAllowOrigin s1
    let added :=
      if allowOrigin != "" then added ++ [("Access-Control-Allow-Origin", allowOrigin)]
      else added
    let added := added ++ [("Access-Control-Max-Age", toString s1.headers.accessControlMaxAge)]
    ⟨s1, added, false, req⟩
  else
    let req1 := modifyRequestHeaders s1 req
    ⟨s1, [], s1.hasNext, req1⟩

/-- The spec's preflight predicate: method `OPTIONS` and the three
non-empty signal headers. -/
def isPreflight (req : Request) : Bool :=
  hGet req.headers "Access-Control-Request-Method" != "" &&
  hGet req.headers "Access-Control-Request-Headers" != "" &&
  hGet req.headers "Origin" != "" &&
  req.method == "OPTIONS"

/-- `New`: fails with the configuration error when no secure, custom or
CORS headers are configured; otherwise installs the middleware (the
assembled handler chain is abstracted to `Unit`). -/
def newMiddleware (hasSecureHeaders hasCustomHeaders hasCorsHeaders : Bool) :
    Except String Unit :=
  if !hasSecureHeaders && !hasCustomHeaders && !hasCorsHeaders then
    Except.error "headers configuration not valid"
  else
    Except.ok ()

/-- The response-modifier closure built by `buildHeaders` in the
`responsemodifiers` package, restricted to the in-scope headers stage: when
custom or CORS headers are configured it runs `ModifyResponseHeaders` on a
`Header` freshly built by `NewHeader(nil, *hdrs)`.  (The external secure
delegate stage is out of scope and touches none of the CORS headers.) -/
def buildHeadersModify (cfg : ConfigHeaders) (hasCustomHeaders hasCorsHeaders : Bool)
    (resp : HeaderMap) : HeaderMap :=
  if hasCustomHeaders || hasCorsHeaders then
    modifyResponseHeaders (NewHeader false cfg) resp
  else resp

/-- The cumulative effect of a custom-header mapping on one name:
`none` when the mapping never touches the name, `some none` when the last
pair for the name deletes it, `some (some v)` when the last pair sets `v`. -/
def applyEffect (m : List (String × String)) (k : String) : Option (Option String) :=
  match m with
  | [] => none
  | p :: rest =>
      Option.or (applyEffect rest k)
        (if p.1 = k then some (if p.2 = "" then none else some p.2) else none)

/-! Basic lemmas about the header-map operations. -/

theorem hLookup_cons (p : String × String) (h : HeaderMap) (k : String) :
    hLookup (p :: h) k = if p.1 = k then some p.2 else hLookup h k := by
  by_cases hpk : p.1 = k <;> simp [hLookup, List.find?_cons, hpk]

theorem hLookup_hDel (h : HeaderMap) (k k' : String) :
    hLookup (hDel h k) k' = if k = k' then none else hLookup h k' := by
  induction h with
  | nil => by_cases hkk : k = k' <;> simp [hDel, hLookup, hkk]
  | cons p t ih =>
    by_cases hpk : p.1 = k <;>
      by_cases hkk : k = k' <;>
        simp_all [hDel, List.filter_cons, hLookup_cons, hpk, hkk]

theorem hLookup_hSet (h : HeaderMap) (k v k' : String) :
    hLookup (hSet h k v) k' = if k = k' then some v else hLookup h k' := by
  by_cases hkk : k = k' <;> simp [hSet, hLookup_cons, hkk, hLookup_hDel]

theorem hLookup_applyOne (h : HeaderMap) (p : String × String) (k : String) :
    hLookup (applyOne h p) k =
      if p.1 = k then (if p.2 = "" then none else some p.2) else hLookup h k := by
  by_cases hpk : p.1 = k <;> by_cases hv : p.2 = "" <;>
    simp [applyOne, hv, hpk, hLookup_hDel, hLookup_hSet]

theorem applyCustomHeaders_cons (p : String × String) (rest : List (String × String))
    (h : HeaderMap) :
    applyCustomHeaders (p :: rest) h = applyCustomHeaders rest (applyOne h p) := rfl

theorem hLookup_applyCustomHeaders (m : List (String × String)) (h : HeaderMap)
    (k : String) :
    hLookup (applyCustomHeaders m h) k = (applyEffect m k).getD (hLookup h k) := by
  induction m generalizing h with
  | nil => rfl
  | cons p rest ih =>
    rw [applyCustomHeaders_cons, ih]
    cases he : applyEffect rest k with
    | some e => simp [applyEffect, he, Option.or]
    | none =>
      by_cases hpk : p.1 = k <;> by_cases hv : p.2 = "" <;>
        simp [applyEffect, he, Option.or, hLookup_applyOne, hpk, hv]

theorem hGet_hSet (h : HeaderMap) (k v k' : String) :
    hGet (hSet h k v) k' = if k = k' then v else hGet h k' := by
  by_cases hkk : k = k' <;> simp [hGet, hLookup_hSet, hkk]

theorem applyCustomHeaders_idem (m : List (String × String)) (h : HeaderMap)
    (k : String) :
    hLookup (applyCustomHeaders m (applyCustomHeaders m h)) k
      = hLookup (applyCustomHeaders m h) k := by
  rw [hLookup_applyCustomHeaders, hLookup_applyCustomHeaders]
  cases applyEffect m k <;> simp

theorem hLookup_modifyResponseHeaders (s : Header) (res : HeaderMap) (k : String)
    (hk : k ≠ "Vary") :
    hLookup (modifyResponseHeaders s res) k =
      if "Access-Control-Expose-Headers" = k ∧
          String.intercalate "," s.headers.accessControlExposeHeaders ≠ "" then
        some (String.intercalate "," s.headers.accessControlExposeHeaders)
      else if "Access-Control-Allow-Credentials" = k ∧
          s.headers.accessControlAllowCredentials = true then
        some "true"
      else if "Access-Control-Allow-Origin" = k ∧ getAllowOrigin s ≠ "" then
        some (getAllowOrigin s)
      else
        (applyEffect s.headers.customResponseHeaders k).getD (hLookup res k) := by
  by_cases hE : String.intercalate "," s.headers.accessControlExposeHeaders = ""
  <;> by_cases hC : s.headers.accessControlAllowCredentials
  <;> by_cases hO : getAllowOrigin s = ""
  <;> by_cases hV : s.headers.addVaryHeader
  <;> simp [modifyResponseHeaders, hE, hC, hO, hV, hLookup_hSet,
        hLookup_applyCustomHeaders, Ne.symm hk]

theorem vary_set_modifyResponseHeaders (s : Header) (res : HeaderMap)
    (ho : getAllowOrigin s ≠ "") (hv : s.headers.addVaryHeader = true) :
    hLookup (modifyResponseHeaders s res) "Vary" =
      some (if hGet (applyCustomHeaders s.headers.customResponseHeaders res) "Vary" != ""
            then hGet (applyCustomHeaders s.headers.customResponseHeaders res) "Vary"
                  ++ ",Origin"
            else "Origin") := by
  by_cases hE : String.intercalate "," s.headers.accessControlExposeHeaders = ""
  <;> by_cases hC : s.headers.accessControlAllowCredentials
  <;> simp [modifyResponseHeaders, hE, hC, ho, hv, hLookup_hSet, hGet_hSet]

theorem vary_unchanged_modifyResponseHeaders (s : Header) (res : HeaderMap)
    (h : getAllowOrigin s = "" ∨ s.headers.addVaryHeader = false) :
    hLookup (modifyResponseHeaders s res) "Vary" =
      hLookup (applyCustomHeaders s.headers.customResponseHeaders res) "Vary" := by
  by_cases hE : String.intercalate "," s.headers.accessControlExposeHeaders = ""
  <;> by_cases hC : s.headers.accessControlAllowCredentials
  <;> by_cases hO : getAllowOrigin s = ""
  <;> by_cases hV : s.headers.addVaryHeader
  <;> rcases h with h | h
  <;> simp_all [modifyResponseHeaders, hLookup_hSet]

/-! Claim theorems. -/

/-- Claim C2: `getAllowOrigin` returns the literal `"null"` when the policy is
`origin-list-or-null` and the stored Origin is empty, the Origin verbatim when
it is non-empty, `"*"` under the wildcard policy irrespective of the Origin,
and the empty string for any other configured value. -/
theorem getAllowOrigin_cases (s : Header) :
    (s.headers.accessControlAllowOrigin = "origin-list-or-null" →
        s.originHeader = "" → getAllowOrigin s = "null") ∧
    (s.headers.accessControlAllowOrigin = "origin-list-or-null" →
        s.originHeader ≠ "" → getAllowOrigin s = s.originHeader) ∧
    (s.headers.accessControlAllowOrigin = "*" → getAllowOrigin s = "*") ∧
    (s.headers.accessControlAllowOrigin ≠ "origin-list-or-null" →
        s.headers.accessControlAllowOrigin ≠ "*" → getAllowOrigin s = "") := by
  refine ⟨fun h1 h2 => ?_, fun h1 h2 => ?_, fun h1 => ?_, fun h1 h2 => ?_⟩
  · simp [getAllowOrigin, h1, h2]
  · simp [getAllowOrigin, h1, h2]
  · simp [getAllowOrigin, h1]
  · simp [getAllowOrigin, h1, h2]

theorem getAllowOrigin_cases_witness :
    getAllowOrigin ⟨false, ⟨[], [], false, [], [], "origin-list-or-null", [], 0, false⟩,
        ""⟩ = "null" ∧
    getAllowOrigin ⟨false, ⟨[], [], false, [], [], "origin-list-or-null", [], 0, false⟩,
        "http://a"⟩ = "http://a" ∧
    getAllowOrigin ⟨false, ⟨[], [], false, [], [], "*", [], 0, false⟩,
        "http://a"⟩ = "*" ∧
    getAllowOrigin ⟨false, ⟨[], [], false, [], [], "https://e.com", [], 0, false⟩,
        "http://a"⟩ = "" :=
  ⟨(getAllowOrigin_cases _).1 rfl rfl,
   (getAllowOrigin_cases _).2.1 rfl (by decide),
   (getAllowOrigin_cases _).2.2.1 rfl,
   (getAllowOrigin_cases _).2.2.2 (by decide) (by decide)⟩

/-- Claim C6: with `AccessControlAllowCredentials` enabled, every response
processed by `ModifyResponseHeaders` carries
`Access-Control-Allow-Credentials: true`, also when the resolved allow-origin
is empty. -/
theorem modifyResponseHeaders_credentials (s : Header) (res : HeaderMap)
    (hC : s.headers.accessControlAllowCredentials = true) :
    hGet (modifyResponseHeaders s res) "Access-Control-Allow-Credentials"
      = "true" := by
  have h := hLookup_modifyResponseHeaders s res "Access-Control-Allow-Credentials"
      (by decide)
  simp [hC] at h
  simp [hGet, h]

theorem modifyResponseHeaders_credentials_witness :
    hGet (modifyResponseHeaders
        ⟨false, ⟨[], [], true, [], [], "https://e.com", [], 0, false⟩, ""⟩ [])
      "Access-Control-Allow-Credentials" = "true" :=
  modifyResponseHeaders_credentials _ [] rfl

/-- Claim C8: `New` fails with the configuration error exactly when none of
the secure, custom or CORS header groups is configured, and succeeds
otherwise. -/
theorem newMiddleware_config_error (a b c : Bool) :
    ((a || b || c) = false →
        newMiddleware a b c = Except.error "headers configuration not valid") ∧
    ((a || b || c) = true → newMiddleware a b c = Except.ok ()) := by
  cases a <;> cases b <;> cases c <;> simp [newMiddleware]

theorem newMiddleware_config_error_witness :
    newMiddleware false false false
        = Except.error "headers configuration not valid" ∧
    newMiddleware true false false = Except.ok () :=
  ⟨(newMiddleware_config_error false false false).1 rfl,
   (newMiddleware_config_error true false false).2 rfl⟩

/-- Claim C9: the response-modifier path builds a fresh `Header` whose stored
Origin is empty, so with the `origin-list-or-null` policy it always emits
`Access-Control-Allow-Origin: null`, whatever Origin the original request
carried. -/
theorem buildHeaders_null_origin (cfg : ConfigHeaders) (hc hcors : Bool)
    (resp : HeaderMap)
    (hpol : cfg.accessControlAllowOrigin = "origin-list-or-null")
    (hrun : (hc || hcors) = true) :
    hGet (buildHeadersModify cfg hc hcors resp) "Access-Control-Allow-Origin"
      = "null" := by
  have hao : getAllowOrigin (NewHeader false cfg) = "null" := by
    simp [getAllowOrigin, NewHeader, hpol]
  have h := hLookup_modifyResponseHeaders (NewHeader false cfg) resp
      "Access-Control-Allow-Origin" (by decide)
  rw [hao] at h
  simp at h
  simp [buildHeadersModify, hrun, hGet, h]

theorem buildHeaders_null_origin_witness :
    hGet (buildHeadersModify
        ⟨[], [], false, [], [], "origin-list-or-null", [], 0, false⟩ false true [])
      "Access-Control-Allow-Origin" = "null" :=
  buildHeaders_null_origin _ false true [] rfl rfl

/-- Claim C3: with `AddVaryHeader` enabled and a non-empty resolved
allow-origin, `ModifyResponseHeaders` turns an existing `Vary` value `v` into
`v ++ ",Origin"` and an absent or empty `Vary` into exactly `"Origin"`; when
the resolved allow-origin is empty or `AddVaryHeader` is off, `Vary` is left
unchanged.  The custom response-header mapping is assumed not to touch
`Vary` itself. -/
theorem modifyResponseHeaders_vary (s : Header) (res : HeaderMap)
    (hcv : applyEffect s.headers.customResponseHeaders "Vary" = none) :
    (s.headers.addVaryHeader = true → getAllowOrigin s ≠ "" →
        hGet (modifyResponseHeaders s res) "Vary" =
          (if hGet res "Vary" != "" then hGet res "Vary" ++ ",Origin"
           else "Origin")) ∧
    ((s.headers.addVaryHeader = false ∨ getAllowOrigin s = "") →
        hLookup (modifyResponseHeaders s res) "Vary" = hLookup res "Vary") := by
  have hcu : hGet (applyCustomHeaders s.headers.customResponseHeaders res) "Vary"
      = hGet res "Vary" := by
    simp [hGet, hLookup_applyCustomHeaders, hcv]
  constructor
  · intro hv ho
    have h := vary_set_modifyResponseHeaders s res ho hv
    rw [hcu] at h
    simp [hGet, h]
  · intro h
    have h2 := vary_unchanged_modifyResponseHeaders s res h.symm
    rw [h2, hLookup_applyCustomHeaders, hcv]
    rfl

theorem modifyResponseHeaders_vary_witness :
    hGet (modifyResponseHeaders ⟨false, ⟨[], [], false, [], [], "*", [], 0, true⟩, ""⟩
        [("Vary", "Accept-Encoding")]) "Vary" = "Accept-Encoding,Origin" ∧
    hGet (modifyResponseHeaders ⟨false, ⟨[], [], false, [], [], "*", [], 0, true⟩, ""⟩
        []) "Vary" = "Origin" ∧
    hLookup (modifyResponseHeaders ⟨false, ⟨[], [], false, [], [], "*", [], 0, false⟩,
        ""⟩ [("Vary", "Accept-Encoding")]) "Vary" = some "Accept-Encoding" := by
  refine ⟨?_, ?_, ?_⟩
  · have h := (modifyResponseHeaders_vary
        ⟨false, ⟨[], [], false, [], [], "*", [], 0, true⟩, ""⟩
        [("Vary", "Accept-Encoding")] rfl).1 rfl (by decide)
    rw [h]; decide
  · have h := (modifyResponseHeaders_vary
        ⟨false, ⟨[], [], false, [], [], "*", [], 0, true⟩, ""⟩ [] rfl).1 rfl (by decide)
    rw [h]; decide
  · have h := (modifyResponseHeaders_vary
        ⟨false, ⟨[], [], false, [], [], "*", [], 0, false⟩, ""⟩
        [("Vary", "Accept-Encoding")] rfl).2 (Or.inl rfl)
    rw [h]; decide

/-- Claim C7: the custom-header rewrite (shared by the request path and the
custom response-header stage) maps an empty value to deletion, and applying
the same mapping twice leaves exactly the header state of one application. -/
theorem customHeaders_rewrite_idempotent (s : Header) (req : Request)
    (m : List (String × String)) (h : HeaderMap) (k n : String) :
    hLookup (applyCustomHeaders m (applyCustomHeaders m h)) k
        = hLookup (applyCustomHeaders m h) k ∧
    applyOne h (n, "") = hDel h n ∧
    hLookup (modifyRequestHeaders s (modifyRequestHeaders s req)).headers k
        = hLookup (modifyRequestHeaders s req).headers k := by
  refine ⟨applyCustomHeaders_idem m h k, by simp [applyOne], ?_⟩
  exact applyCustomHeaders_idem _ _ _

/-- Claim C10: with `AddVaryHeader` on and a non-empty resolved allow-origin
(and a custom mapping not touching `Vary`), a second run of
`ModifyResponseHeaders` appends `",Origin"` to `Vary` once more, while every
other header is identical after one and after two applications. -/
theorem modifyResponseHeaders_vary_not_idempotent (s : Header) (res : HeaderMap)
    (hv : s.headers.addVaryHeader = true) (ho : getAllowOrigin s ≠ "")
    (hcv : applyEffect s.headers.customResponseHeaders "Vary" = none) :
    hGet (modifyResponseHeaders s (modifyResponseHeaders s res)) "Vary"
        = hGet (modifyResponseHeaders s res) "Vary" ++ ",Origin" ∧
    ∀ k, k ≠ "Vary" →
      hLookup (modifyResponseHeaders s (modifyResponseHeaders s res)) k
        = hLookup (modifyResponseHeaders s res) k := by
  have hcu : ∀ r, hGet (applyCustomHeaders s.headers.customResponseHeaders r) "Vary"
      = hGet r "Vary" := by
    intro r; simp [hGet, hLookup_applyCustomHeaders, hcv]
  constructor
  · have h1 := vary_set_modifyResponseHeaders s res ho hv
    have h2 := vary_set_modifyResponseHeaders s (modifyResponseHeaders s res) ho hv
    rw [hcu] at h1 h2
    have hval : hGet (modifyResponseHeaders s res) "Vary"
        = (if hGet res "Vary" != "" then hGet res "Vary" ++ ",Origin"
           else "Origin") := by
      simp [hGet, h1]
    have hne : hGet (modifyResponseHeaders s res) "Vary" ≠ "" := by
      rw [hval]
      by_cases hr : hGet res "Vary" = ""
      · simp [hr]
      · simp only [bne_iff_ne, ne_eq, hr, not_false_iff, if_pos]
        intro hcontra
        have hlen := congrArg String.length hcontra
        simp [String.length_append] at hlen
        exact absurd hlen.2 (by decide)
    simp only [hGet, h2]
    simp [hne, hGet]
    intro hcontra
    exact absurd hcontra (by simpa [hGet] using hne)
  · intro k hk
    rw [hLookup_modifyResponseHeaders s (modifyResponseHeaders s res) k hk,
        hLookup_modifyResponseHeaders s res k hk]
    split_ifs <;> try rfl
    cases applyEffect s.headers.customResponseHeaders k <;> simp

theorem modifyResponseHeaders_vary_not_idempotent_witness :
    hGet (modifyResponseHeaders ⟨false, ⟨[], [], false, [], [], "*", [], 0, true⟩, ""⟩
        (modifyResponseHeaders ⟨false, ⟨[], [], false, [], [], "*", [], 0, true⟩, ""⟩
          [])) "Vary" = "Origin,Origin" := by
  have h := (modifyResponseHeaders_vary_not_idempotent
      ⟨false, ⟨[], [], false, [], [], "*", [], 0, true⟩, ""⟩ [] rfl (by decide) rfl).1
  rw [h]; decide

/-- Claim C1: a preflight request (method `OPTIONS` with non-empty
`Access-Control-Request-Method`, `Access-Control-Request-Headers` and
`Origin`) is answered by `ServeHTTP` itself without invoking the next
handler; any other request produces no synthesized response headers, has its
request headers rewritten by the custom mapping, and is passed to the next
handler when one is installed. -/
theorem serveHTTP_preflight_terminal (s : Header) (req : Request) :
    (isPreflight req = true →
        (serveHTTP s req).nextCalled = false ∧ (serveHTTP s req).added ≠ []) ∧
    (isPreflight req = false →
        (serveHTTP s req).added = [] ∧
        (serveHTTP s req).request.headers
          = applyCustomHeaders s.headers.customRequestHeaders req.headers ∧
        (s.hasNext = true → (serveHTTP s req).nextCalled = true)) := by
  constructor
  · intro hp
    simp only [serveHTTP]
    split
    · exact ⟨rfl, by simp⟩
    · next hcond => exact absurd hp hcond
  · intro hp
    simp only [serveHTTP]
    split
    · next hcond =>
        have hpt : isPreflight req = true := hcond
        rw [hpt] at hp
        exact Bool.noConfusion hp
    · exact ⟨rfl, rfl, fun h => h⟩

theorem serveHTTP_preflight_terminal_witness :
    (serveHTTP ⟨true, ⟨[], [], false, [], [], "*", [], 0, false⟩, ""⟩
        ⟨"OPTIONS", [("Access-Control-Request-Method", "GET"),
                     ("Access-Control-Request-Headers", "X-Foo"),
                     ("Origin", "http://a")]⟩).nextCalled = false ∧
    (serveHTTP ⟨true, ⟨[], [], false, [], [], "*", [], 0, false⟩, ""⟩
        ⟨"GET", [("Origin", "http://a")]⟩).nextCalled = true :=
  ⟨((serveHTTP_preflight_terminal _ _).1 (by decide)).1,
   ((serveHTTP_preflight_terminal
      ⟨true, ⟨[], [], false, [], [], "*", [], 0, false⟩, ""⟩
      ⟨"GET", [("Origin", "http://a")]⟩).2 (by decide)).2.2 rfl⟩

/-- Claim C5: the synthesized preflight response consists of, in emission
order: `Access-Control-Allow-Credentials` when enabled, the comma-joined
allow-headers when non-empty, the comma-joined allow-methods when non-empty,
the resolved allow-origin when non-empty, and always, last,
`Access-Control-Max-Age` carrying the decimal string of the configured
seconds, `"0"` included. -/
theorem serveHTTP_preflight_emission (s : Header) (req : Request)
    (hp : isPreflight req = true) :
    (serveHTTP s req).added =
      (if s.headers.accessControlAllowCredentials then
          [("Access-Control-Allow-Credentials", "true")] else [])
      ++ (if String.intercalate "," s.headers.accessControlAllowHeaders != "" then
          [("Access-Control-Allow-Headers",
              String.intercalate "," s.headers.accessControlAllowHeaders)] else [])
      ++ (if String.intercalate "," s.headers.accessControlAllowMethods != "" then
          [("Access-Control-Allow-Methods",
              String.intercalate "," s.headers.accessControlAllowMethods)] else [])
      ++ (if getAllowOrigin (storeOrigin s req) != "" then
          [("Access-Control-Allow-Origin", getAllowOrigin (storeOrigin s req))]
          else [])
      ++ [("Access-Control-Max-Age", toString s.headers.accessControlMaxAge)] ∧
    (serveHTTP s req).added.getLast?
      = some ("Access-Control-Max-Age", toString s.headers.accessControlMaxAge) := by
  simp only [serveHTTP]
  split
  · rw [show (storeOrigin s req).headers = s.headers from rfl]
    constructor
    · by_cases hC : s.headers.accessControlAllowCredentials
      <;> by_cases hH : String.intercalate "," s.headers.accessControlAllowHeaders = ""
      <;> by_cases hM : String.intercalate "," s.headers.accessControlAllowMethods = ""
      <;> by_cases hO : getAllowOrigin (storeOrigin s req) = ""
      <;> simp [hC, hH, hM, hO]
    · by_cases hC : s.headers.accessControlAllowCredentials
      <;> by_cases hH : String.intercalate "," s.headers.accessControlAllowHeaders = ""
      <;> by_cases hM : String.intercalate "," s.headers.accessControlAllowMethods = ""
      <;> by_cases hO : getAllowOrigin (storeOrigin s req) = ""
      <;> simp [hC, hH, hM, hO, List.getLast?_concat]
  · next hcond => exact absurd hp hcond

theorem serveHTTP_preflight_emission_witness :
    (serveHTTP ⟨true, ⟨[], [], true, ["X-Foo"], ["GET", "POST"], "*", [], 0, false⟩, ""⟩
        ⟨"OPTIONS", [("Access-Control-Request-Method", "GET"),
                     ("Access-Control-Request-Headers", "X-Foo"),
                     ("Origin", "http://a")]⟩).added =
      [("Access-Control-Allow-Credentials", "true"),
       ("Access-Control-Allow-Headers", "X-Foo"),
       ("Access-Control-Allow-Methods", "GET,POST"),
       ("Access-Control-Allow-Origin", "*"),
       ("Access-Control-Max-Age", "0")] := by
  have h := (serveHTTP_preflight_emission
      ⟨true, ⟨[], [], true, ["X-Foo"], ["GET", "POST"], "*", [], 0, false⟩, ""⟩
      ⟨"OPTIONS", [("Access-Control-Request-Method", "GET"),
                   ("Access-Control-Request-Headers", "X-Foo"),
                   ("Origin", "http://a")]⟩ (by decide)).1
  rw [h]; decide

/-- Claim C4 concerns the code as it stands: `ServeHTTP` stores the request's
Origin in the `originHeader` field of the shared `Header` struct (second
conjunct), so under the interleaving in which a second request's assignment
runs between the first request's assignment and its origin resolution, the
first request resolves the second request's Origin (first conjunct). -/
theorem sharedOrigin_race :
    getAllowOrigin (storeOrigin (storeOrigin
        (NewHeader true ⟨[], [], false, [], [], "origin-list-or-null", [], 0, false⟩)
        ⟨"OPTIONS", [("Access-Control-Request-Method", "GET"),
                     ("Access-Control-Request-Headers", "X-Foo"),
                     ("Origin", "http://a")]⟩)
        ⟨"OPTIONS", [("Origin", "http://b")]⟩) = "http://b" ∧
    (serveHTTP
        (NewHeader true ⟨[], [], false, [], [], "origin-list-or-null", [], 0, false⟩)
        ⟨"GET", [("Origin", "http://b")]⟩).state.originHeader = "http://b" := by
  exact ⟨by decide, by decide⟩

end Headers
